import Mathlib

/-!
Verification of the data-run segmentation, settle-time correction, and
heat-load/Q0 regression pipeline of the Q0-measurement repository.

The pipeline is shallowly embedded over exact rationals (`ℚ`); the Q0
temperature-correction formula, which uses the exponential function, is
embedded over `ℝ`.  Python list indexing `buf[i]` on in-range indices is
modelled with `List.getD`, Python slices `buf[a:b]` with take/drop, and the
out-of-bounds-sensitive settle loop with an `Option`-valued function where
`none` models an `IndexError`.  Python `int(x)` truncation is `pyInt`.
-/

set_option maxRecDepth 4000

namespace Q0Pipeline

/-! ## Definitions -/

def MIN_DS_LL : ℚ := 90

def VALVE_POSITION_TOLERANCE : ℚ := 2

def HEATER_TOLERANCE : ℚ := 1

def MIN_RUN_DURATION : ℚ := 900

def GRAD_TOLERANCE : ℚ := 7/10

/-- Python's abs() on rationals, written so that it kernel-reduces. -/
def pyAbs (q : ℚ) : ℚ := if q < 0 then -q else q

/-- The parallel sample buffers of one DataSession (container.py), together
with the session's reference configuration.  Gradient buffer entries are
`Option ℚ` because CSV parse failures store `None` (container.py line 1318). -/
structure SessionData where
  unixTimeBuff : List ℚ
  dsLevelBuff : List ℚ
  valvePosBuff : List ℚ
  elecHeatDesBuff : List ℚ
  elecHeatActBuff : List ℚ
  gradBuff : List (Option ℚ)
  dsPressBuff : List ℚ
  refHeatLoad : ℚ
  refValvePos : ℚ
  refGradVal : ℚ
deriving DecidableEq

/-- A segmented data run: inclusive start/end indices into the session
buffers plus the Heater/RF classification made by `_addRun`
(container.py lines 1392-1404). -/
structure RunSeg where
  startIdx : ℕ
  endIdx : ℕ
  isHeaterRun : Bool
deriving DecidableEq, Inhabited

/-- DataSession._isEndOfCalibRun (container.py lines 1356-1377). -/
def isEndOfCalibRun (s : SessionData) (idx : ℕ) : Bool :=
  let elecHeatLoadDes := s.elecHeatDesBuff.getD idx 0
  let prevElecHeatLoadDes := if idx > 0 then s.elecHeatDesBuff.getD (idx - 1) 0
                             else elecHeatLoadDes
  let heaterChanged := decide (elecHeatLoadDes ≠ prevElecHeatLoadDes)
  let liqLevelTooLow := decide (s.dsLevelBuff.getD idx 0 < MIN_DS_LL)
  let valveOutsideTol :=
    decide (pyAbs (s.valvePosBuff.getD idx 0 - s.refValvePos) > VALVE_POSITION_TOLERANCE)
  let isLastElement := decide (idx = s.elecHeatDesBuff.length - 1)
  let heatersOutsideTol :=
    decide (pyAbs (elecHeatLoadDes - s.elecHeatActBuff.getD idx 0) ≥ HEATER_TOLERANCE)
  heaterChanged || liqLevelTooLow || valveOutsideTol || isLastElement || heatersOutsideTol

/-- Gradient-step break condition of Q0DataSession.populateRuns
(container.py lines 1685-1689); the `TypeError` branch taken on a `None`
gradient entry yields `false`. -/
def gradChanged (s : SessionData) (idx : ℕ) : Bool :=
  if idx = 0 then false
  else
    match s.gradBuff.getD idx none, s.gradBuff.getD (idx - 1) none with
    | some g, some gPrev => decide (pyAbs (g - gPrev) > GRAD_TOLERANCE)
    | _, _ => false

/-- Break condition used by Q0DataSession.populateRuns (container.py line 1691). -/
def isEndOfQ0Run (s : SessionData) (idx : ℕ) : Bool :=
  isEndOfCalibRun s idx || gradChanged s idx

/-- DataSession._addRun (container.py lines 1392-1404): append the run and
classify it as a heater run iff the desired heat at its start differs from
the session reference heat load. -/
def addRun (s : SessionData) (runs : List RunSeg) (startIdx endIdx : ℕ) : List RunSeg :=
  runs ++ [⟨startIdx, endIdx, decide (s.elecHeatDesBuff.getD startIdx 0 - s.refHeatLoad ≠ 0)⟩]

/-- DataSession._checkAndFlushRun (container.py lines 1379-1390): on a break
at `idx`, emit the run `[runStartIdx, idx - 1]` iff the elapsed time from
`runStartIdx` to `idx` is at least `MIN_RUN_DURATION`, and restart at `idx`. -/
def checkAndFlushRun (s : SessionData) (isEndOfRun : Bool) (idx runStartIdx : ℕ)
    (runs : List RunSeg) : List RunSeg × ℕ :=
  if isEndOfRun then
    let runDuration := s.unixTimeBuff.getD idx 0 - s.unixTimeBuff.getD runStartIdx 0
    (if runDuration ≥ MIN_RUN_DURATION then addRun s runs runStartIdx (idx - 1) else runs,
     idx)
  else (runs, runStartIdx)

/-- The populateRuns enumeration loop, processing the given sample indices in
order while threading the accumulated run list and tentative run start. -/
def segLoop (s : SessionData) (endCond : SessionData → ℕ → Bool) :
    List ℕ → List RunSeg × ℕ → List RunSeg × ℕ
  | [], acc => acc
  | idx :: rest, acc =>
      segLoop s endCond rest (checkAndFlushRun s (endCond s idx) idx acc.2 acc.1)

/-- CalibDataSession.populateRuns (container.py lines 1488-1494). -/
def populateRunsCalib (s : SessionData) : List RunSeg :=
  (segLoop s isEndOfCalibRun (List.range s.elecHeatDesBuff.length) ([], 0)).1

/-- Q0DataSession.populateRuns (container.py lines 1678-1694). -/
def populateRunsQ0 (s : SessionData) : List RunSeg :=
  (segLoop s isEndOfQ0Run (List.range s.elecHeatDesBuff.length) ([], 0)).1

/-- Duration property carried by every emitted run: the elapsed time from the
run's start sample to the sample one past its (inclusive) end is at least
`MIN_RUN_DURATION`. -/
def minDurOK (s : SessionData) (r : RunSeg) : Prop :=
  MIN_RUN_DURATION ≤ s.unixTimeBuff.getD (r.endIdx + 1) 0 - s.unixTimeBuff.getD r.startIdx 0

/-- Python int() truncation toward zero on a rational, via integer T-division. -/
def pyInt (q : ℚ) : ℤ := Int.tdiv q.num q.den

/-- Q0DataSession.approxHeatFromGrad (container.py lines 1754-1760). -/
def approxHeatFromGrad (grad : ℚ) : ℚ :=
  if grad > 0 then (grad / 16) ^ 2 * 9.6 else 0

/-- The gradient buffer value read by getTotalHeatDelta.  The source indexes
the raw buffer, so this is only meaningful (and only used in theorems) where
the entry is present. -/
def gradAt (s : SessionData) (idx : ℕ) : ℚ := (s.gradBuff.getD idx none).getD 0

/-- CalibDataSession.getTotalHeatDelta (container.py lines 1554-1566).  The
previous run is read from the run list as it stands when the delta is
computed, i.e. from the last element of the processed prefix. -/
def getTotalHeatDeltaCalib (s : SessionData) (processed : List RunSeg) (startIdx : ℕ) : ℚ :=
  match processed.getLast? with
  | none => s.elecHeatDesBuff.getD startIdx 0 - s.refHeatLoad
  | some prevRun =>
      pyAbs (s.elecHeatDesBuff.getD startIdx 0 - s.elecHeatDesBuff.getD prevRun.startIdx 0)

/-- Q0DataSession.getTotalHeatDelta (container.py lines 1726-1747). -/
def getTotalHeatDeltaQ0 (s : SessionData) (processed : List RunSeg) (startIdx : ℕ) : ℚ :=
  match processed.getLast? with
  | none =>
      s.elecHeatDesBuff.getD startIdx 0 - s.refHeatLoad + approxHeatFromGrad (gradAt s startIdx)
  | some prevRun =>
      let elecHeatDelta :=
        s.elecHeatDesBuff.getD startIdx 0 - s.elecHeatDesBuff.getD prevRun.startIdx 0
      let gradHeatDelta :=
        approxHeatFromGrad (gradAt s startIdx) - approxHeatFromGrad (gradAt s prevRun.startIdx)
      pyAbs (elecHeatDelta + gradHeatDelta)

/-- The settle loop `while duration < cutoff: idx += 1; duration = ...`
(container.py lines 1346-1354), with explicit fuel; it is always entered with
enough fuel to either exit normally or walk off the end of the buffer.
`none` models the IndexError raised when `unixTimeBuff[idx]` is read with
`idx` equal to the buffer length. -/
def settleLoop (unixTimeBuff : List ℚ) (startTime : ℚ) (cutoff : ℤ) :
    ℕ → ℕ → ℚ → Option ℕ
  | 0, _, _ => none
  | fuel + 1, idx, duration =>
      if duration < (cutoff : ℚ) then
        match unixTimeBuff.get? (idx + 1) with
        | none => none
        | some t => settleLoop unixTimeBuff startTime cutoff fuel (idx + 1) (t - startTime)
      else some idx

/-- One run's settle adjustment: the index at which the while loop leaves the
run's trimmed startIdx. -/
def settleTarget (unixTimeBuff : List ℚ) (startTime : ℚ) (cutoff : ℤ) (startIdx : ℕ) :
    Option ℕ :=
  settleLoop unixTimeBuff startTime cutoff (unixTimeBuff.length + 1) startIdx 0

/-- DataSession.adjustForSettle (container.py lines 1326-1354) as a recursion
over the run list.  The runs already processed (and trimmed) are carried in
order because getTotalHeatDelta reads the previous run's startIdx from the
run list that the loop mutates in place. -/
def settleRuns (s : SessionData) (delta : List RunSeg → ℕ → ℚ) :
    List RunSeg → List RunSeg → Option (List RunSeg)
  | processed, [] => some processed
  | processed, run :: rest =>
      let totalHeatDelta := delta processed run.startIdx
      let cutoff := pyInt (totalHeatDelta * 25)
      match settleTarget s.unixTimeBuff (s.unixTimeBuff.getD run.startIdx 0) cutoff
          run.startIdx with
      | none => none
      | some idx => settleRuns s delta (processed ++ [{ run with startIdx := idx }]) rest

/-- adjustForSettle for a calibration session. -/
def adjustForSettleCalib (s : SessionData) (runs : List RunSeg) : Option (List RunSeg) :=
  settleRuns s (getTotalHeatDeltaCalib s) [] runs

/-- adjustForSettle for a Q0 session. -/
def adjustForSettleQ0 (s : SessionData) (runs : List RunSeg) : Option (List RunSeg) :=
  settleRuns s (getTotalHeatDeltaQ0 s) [] runs

/-- DataSession.processData (container.py lines 1244-1257) up to (and
excluding) the fitting step, for a Q0 session: populateRuns, then
adjustForSettle on the segmented runs. -/
def processDataRunsQ0 (s : SessionData) : Option (List RunSeg) :=
  adjustForSettleQ0 s (populateRunsQ0 s)

/-- Modelled from the spec (section 4.2): a settle trimmer in which run i's heat
delta reads run i-1's ORIGINAL, pre-trim start index, as the spec words it;
the untrimmed prefix of the run list is carried instead of the trimmed one. -/
def settleRunsPre (s : SessionData) (delta : List RunSeg → ℕ → ℚ) :
    List RunSeg → List RunSeg → Option (List RunSeg)
  | _, [] => some []
  | origPrefix, run :: rest =>
      let totalHeatDelta := delta origPrefix run.startIdx
      let cutoff := pyInt (totalHeatDelta * 25)
      match settleTarget s.unixTimeBuff (s.unixTimeBuff.getD run.startIdx 0) cutoff
          run.startIdx with
      | none => none
      | some idx =>
          match settleRunsPre s delta (origPrefix ++ [run]) rest with
          | none => none
          | some rs => some ({ run with startIdx := idx } :: rs)

/-- The spec-worded settle trimmer for a Q0 session. -/
def adjustForSettlePreQ0 (s : SessionData) (runs : List RunSeg) : Option (List RunSeg) :=
  settleRunsPre s (getTotalHeatDeltaQ0 s) [] runs

/-- Python slice `buf[a:b]` for in-range nonnegative bounds. -/
def pySlice (l : List ℚ) (a b : ℕ) : List ℚ := (l.take b).drop a

/-- DataRun.data (container.py lines 1864-1867): `dsLevelBuff[startIdx:endIdx]`. -/
def runData (s : SessionData) (r : RunSeg) : List ℚ :=
  pySlice s.dsLevelBuff r.startIdx r.endIdx

/-- DataRun.timeStamps (container.py lines 1869-1872):
`unixTimeBuff[startIdx:endIdx]`. -/
def runTimeStamps (s : SessionData) (r : RunSeg) : List ℚ :=
  pySlice s.unixTimeBuff r.startIdx r.endIdx

/-- Modelled from the spec (sections 3 and 4.3): the samples of a run when its
`{startIdx, endIdx}` bounds are read as inclusive, i.e. indices `startIdx`
through `endIdx` including the sample at `endIdx`. -/
def runDataInclusive (s : SessionData) (r : RunSeg) : List ℚ :=
  pySlice s.dsLevelBuff r.startIdx (r.endIdx + 1)

/-- Ordinary least-squares slope of ys against xs; the closed form computed by
scipy.stats.linregress and by a degree-1 numpy.polyfit. -/
def olsSlope (xs ys : List ℚ) : ℚ :=
  let n : ℚ := xs.length
  (n * (List.zipWith (fun a b => a * b) xs ys).sum - xs.sum * ys.sum) /
    (n * (xs.map (fun a => a ^ 2)).sum - xs.sum ^ 2)

/-- Ordinary least-squares intercept of ys against xs. -/
def olsIntercept (xs ys : List ℚ) : ℚ :=
  (ys.sum - olsSlope xs ys * xs.sum) / (xs.length : ℚ)

/-- numpy.polyfit(xs, ys, 1): least-squares line, highest-degree coefficient
first. -/
def polyfit1 (xs ys : List ℚ) : ℚ × ℚ := (olsSlope xs ys, olsIntercept xs ys)

/-- The calibration-curve fit at the end of CalibDataSession.processRuns
(container.py lines 1497-1509): polyfit the heater runs' (elecHeatLoadAct,
slope) pairs, then store `heatAdjustment = -xIntercept` where
`xIntercept = -yIntercept / calibSlope`.  Returns (calibSlope, heatAdjustment). -/
def calibFit (runElecHeatLoads adjustedRunSlopes : List ℚ) : ℚ × ℚ :=
  let calibSlope := (polyfit1 runElecHeatLoads adjustedRunSlopes).1
  let yIntercept := (polyfit1 runElecHeatLoads adjustedRunSlopes).2
  let xIntercept := -yIntercept / calibSlope
  (calibSlope, -xIntercept)

/-- The stored calibration slope. -/
def calibSlopeOf (xs ys : List ℚ) : ℚ := (calibFit xs ys).1

/-- The stored heat adjustment (CalibDataSession._heatAdjustment). -/
def heatAdjustmentOf (xs ys : List ℚ) : ℚ := (calibFit xs ys).2

/-- HeaterDataRun.elecHeatLoadActAdjusted (container.py lines 1933-1936): a
reported heat load shifted by the session's stored heat adjustment. -/
def elecHeatLoadActAdjusted (heatActDelta heatAdjustment : ℚ) : ℚ :=
  heatActDelta + heatAdjustment

/-- The fitting step of processRuns (container.py lines 1880-1884): the
linregress slope of each run's level data against its time stamps, computed
from the run bounds as they stand when the fit runs. -/
def processRunsSlopes (s : SessionData) (runs : List RunSeg) : List ℚ :=
  runs.map (fun r => olsSlope (runTimeStamps s r) (runData s r))

/-- The full processData order for a Q0 session (container.py lines
1244-1257): segmentation, then settle adjustment, then the fit. -/
def pipelineQ0 (s : SessionData) : Option (List ℚ) :=
  match processDataRunsQ0 s with
  | none => none
  | some runs => some (processRunsSlopes s runs)

/-- The observables of one heater run inside a Q0 session that
avgHeatAdjustment reads: its fitted dLL/dt slope and its actual electric heat
load (heatActDelta). -/
structure HeaterRunData where
  slope : ℚ
  elecHeatLoadAct : ℚ
deriving DecidableEq, Inhabited

/-- HeaterDataRun.heatAdjustment (container.py lines 1926-1931). -/
def heaterRunHeatAdjustment (calibSlope : ℚ) (r : HeaterRunData) : ℚ :=
  r.elecHeatLoadAct - r.slope / calibSlope

/-- One iteration of the Q0DataSession.avgHeatAdjustment loop (container.py
lines 1635-1639); the Python truthiness guard `if runAdjustment:` keeps only
nonzero adjustments. -/
def heatAdjStep (calibSlope : ℚ) (acc : List ℚ) (r : HeaterRunData) : List ℚ :=
  let runAdjustment := heaterRunHeatAdjustment calibSlope r
  if runAdjustment ≠ 0 then acc ++ [runAdjustment] else acc

/-- Q0DataSession.avgHeatAdjustment (container.py lines 1630-1641). -/
def avgHeatAdjustment (calibSlope : ℚ) (heaterRuns : List HeaterRunData) : ℚ :=
  let adjustments := heaterRuns.foldl (heatAdjStep calibSlope) []
  if adjustments.length = 0 then 0 else adjustments.sum / (adjustments.length : ℚ)

/-- RFDataRun.adjustedTotalHeatLoad (container.py lines 1980-1984). -/
def adjustedTotalHeatLoad (calibSlope : ℚ) (heaterRuns : List HeaterRunData)
    (rfRunSlope : ℚ) : ℚ :=
  rfRunSlope / calibSlope + avgHeatAdjustment calibSlope heaterRuns

/-- Modelled from the spec (section 4.5 step 1) and the claim: the arithmetic mean
over ALL of the session's heater runs, 0 exactly when there are none. -/
def avgHeatAdjustmentSpec (calibSlope : ℚ) (heaterRuns : List HeaterRunData) : ℚ :=
  if heaterRuns.length = 0 then 0
  else (heaterRuns.map (heaterRunHeatAdjustment calibSlope)).sum / (heaterRuns.length : ℚ)

/-- True when the gradient archive entry at `idx` is one the q0 loop falls
back on: a parse failure (`None`) or the literal 0 the archiver sometimes
records. -/
def gradInvalidB (s : SessionData) (idx : ℕ) : Bool :=
  match s.gradBuff.getD idx none with
  | some g => decide (g = 0)
  | none => true

/-- The (gradient, pressure) argument pair fed to calcQ0 for sample `idx`
(container.py lines 2001-2014): the archived gradient when truthy, otherwise
the session's reference gradient. -/
def q0Arg (s : SessionData) (idx : ℕ) : ℚ × ℚ :=
  (match s.gradBuff.getD idx none with
   | some g => if g = 0 then s.refGradVal else g
   | none => s.refGradVal,
   s.dsPressBuff.getD idx 0)

/-- One iteration of the RFDataRun.q0 sample loop (container.py lines
2001-2014), accumulating the calcQ0 argument pairs and the invalid-gradient
counter. -/
def q0Step (s : SessionData) (acc : List (ℚ × ℚ) × ℕ) (idx : ℕ) : List (ℚ × ℚ) × ℕ :=
  match s.gradBuff.getD idx none with
  | some g =>
      if g ≠ 0 then (acc.1 ++ [(g, s.dsPressBuff.getD idx 0)], acc.2)
      else (acc.1 ++ [(s.refGradVal, s.dsPressBuff.getD idx 0)], acc.2 + 1)
  | none => (acc.1 ++ [(s.refGradVal, s.dsPressBuff.getD idx 0)], acc.2 + 1)

/-- The RFDataRun.q0 sample loop over `range(startIdx, endIdx)` (container.py
lines 1997-2014): the list of per-sample calcQ0 argument pairs and the
fallback count `numInvalidGrads`. -/
def q0Loop (s : SessionData) (r : RunSeg) : List (ℚ × ℚ) × ℕ :=
  (List.range' r.startIdx (r.endIdx - r.startIdx)).foldl (q0Step s) ([], 0)

/-- A calibration session of two samples 900 s apart: stable heater, level,
and valve, so the only break is the final flush at index 1. -/
def c4S : SessionData :=
  { unixTimeBuff := [0, 900]
    dsLevelBuff := [95, 95]
    valvePosBuff := [0, 0]
    elecHeatDesBuff := [5, 5]
    elecHeatActBuff := [5, 5]
    gradBuff := []
    dsPressBuff := []
    refHeatLoad := 5
    refValvePos := 0
    refGradVal := 0 }

/-- A Q0 session with two heater-step runs; the gradient drifts from 4 to 4.5
MV/m inside the first run (below GRAD_TOLERANCE), so the first run's
pre-trim start index 0 and post-trim start index 1 carry different gradient
readings, and the 27-second sample step at index 4 separates the resulting
settle cutoffs (25 vs 28). -/
def s3 : SessionData :=
  { unixTimeBuff := [0, 450, 900, 1350, 1377, 1800, 2250, 2700]
    dsLevelBuff := [95, 95, 95, 95, 95, 95, 95, 95]
    valvePosBuff := [0, 0, 0, 0, 0, 0, 0, 0]
    elecHeatDesBuff := [1, 1, 1, 2, 2, 2, 2, 2]
    elecHeatActBuff := [1, 1, 1, 2, 2, 2, 2, 2]
    gradBuff := [some 4, some 4.5, some 4.5, some 4.5, some 4.5, some 4.5, some 4.5, some 4.5]
    dsPressBuff := [0, 0, 0, 0, 0, 0, 0, 0]
    refHeatLoad := 0
    refValvePos := 0
    refGradVal := 16 }

/-- The settle-adjusted runs the pipeline produces on `s3`. -/
def s3Out : List RunSeg := [⟨1, 2, true⟩, ⟨4, 6, true⟩]

/-- A calibration session whose single 100 W heater run yields a 2500 s settle
cutoff, larger than the 900 s the session spans. -/
def c10aS : SessionData :=
  { unixTimeBuff := [0, 450, 900]
    dsLevelBuff := [95, 95, 95]
    valvePosBuff := [0, 0, 0]
    elecHeatDesBuff := [100, 100, 100]
    elecHeatActBuff := [100, 100, 100]
    gradBuff := []
    dsPressBuff := []
    refHeatLoad := 0
    refValvePos := 0
    refGradVal := 0 }

/-- A calibration session whose first run (40 W, cutoff 1000 s) is trimmed
past its own end index. -/
def c10bS : SessionData :=
  { unixTimeBuff := [0, 450, 900, 1350, 1800, 2250, 2700]
    dsLevelBuff := [95, 95, 95, 95, 95, 95, 95]
    valvePosBuff := [0, 0, 0, 0, 0, 0, 0]
    elecHeatDesBuff := [40, 40, 40, 90, 90, 90, 90]
    elecHeatActBuff := [40, 40, 40, 90, 90, 90, 90]
    gradBuff := []
    dsPressBuff := []
    refHeatLoad := 0
    refValvePos := 0
    refGradVal := 0 }

/-- The gradient-fallback scenario of the spec: an RF run of 10 samples whose
only invalid gradient reading is at (run-relative) index 5. -/
def c8S : SessionData :=
  { unixTimeBuff := [0, 1, 2, 3, 4, 5, 6, 7, 8, 9]
    dsLevelBuff := [95, 95, 95, 95, 95, 95, 95, 95, 95, 95]
    valvePosBuff := [0, 0, 0, 0, 0, 0, 0, 0, 0, 0]
    elecHeatDesBuff := [0, 0, 0, 0, 0, 0, 0, 0, 0, 0]
    elecHeatActBuff := [0, 0, 0, 0, 0, 0, 0, 0, 0, 0]
    gradBuff := [some 5, some 5, some 5, some 5, some 5, some 0, some 5, some 5, some 5, some 5]
    dsPressBuff := [21, 21, 21, 21, 21, 21, 21, 21, 21, 21]
    refHeatLoad := 0
    refValvePos := 0
    refGradVal := 16 }

/-- The RF run covering all 10 samples of `c8S`. -/
def c8R : RunSeg := ⟨0, 9, false⟩

/-- A three-sample session for the run-bounds claim. -/
def c9S : SessionData :=
  { unixTimeBuff := [0, 10, 20]
    dsLevelBuff := [1, 2, 3]
    valvePosBuff := [0, 0, 0]
    elecHeatDesBuff := [0, 0, 0]
    elecHeatActBuff := [0, 0, 0]
    gradBuff := []
    dsPressBuff := []
    refHeatLoad := 0
    refValvePos := 0
    refGradVal := 0 }

/-- The run `{startIdx := 0, endIdx := 2}` into `c9S`. -/
def c9R : RunSeg := ⟨0, 2, false⟩

/-- The denominator of RFDataRun.calcQ0's return expression, with the
function's locals (uncorrectedQ0, tempFromPress, C1..C7) bound exactly as in
the source. -/
noncomputable def q0Denom (grad rfHeatLoad avgPressure : ℝ) : ℝ :=
  let uncorrectedQ0 := (grad * 1000000) ^ 2 / (939.3 * rfHeatLoad)
  let tempFromPress := avgPressure * 0.0125 + 1.705
  let c1 : ℝ := 271
  let c2 : ℝ := 0.0000726
  let c3 : ℝ := 0.00000214
  let c4 : ℝ := grad - 0.7
  let c5 : ℝ := 0.000000043
  let c6 : ℝ := -17.02
  let c7 : ℝ := c2 - c3 * c4 + c5 * c4 ^ 2
  (c7 / 2) * Real.exp (c6 / 2) + c1 / uncorrectedQ0
    - (c7 / tempFromPress) * Real.exp (c6 / tempFromPress)

/-- RFDataRun.calcQ0 (container.py lines 2068-2087): `C1` divided by the
corrected denominator. -/
noncomputable def calcQ0 (grad rfHeatLoad avgPressure : ℝ) : ℝ :=
  271 / q0Denom grad rfHeatLoad avgPressure

/-- Modelled from the spec (section 4.5 step 4): the corrected Q0 written with
the spec's constants `C1=271, C2=7.26e-5, C3=2.14e-6, C4=gradient-0.7,
C5=4.3e-8, C6=-17.02, C7=C2-C3*C4+C5*C4^2`,
`uncorrectedQ0 = (gradient*1e6)^2 / (939.3*rfHeatLoad)` and
`tempFromPressure = pressure*0.0125 + 1.705`. -/
noncomputable def specCorrectedQ0 (gradient rfHeatLoad pressure : ℝ) : ℝ :=
  let uncorrectedQ0 := (gradient * 1e6) ^ 2 / (939.3 * rfHeatLoad)
  let tempFromPressure := pressure * 0.0125 + 1.705
  let k1 : ℝ := 271
  let k2 : ℝ := 7.26e-5
  let k3 : ℝ := 2.14e-6
  let k4 : ℝ := gradient - 0.7
  let k5 : ℝ := 4.3e-8
  let k6 : ℝ := -17.02
  let k7 : ℝ := k2 - k3 * k4 + k5 * k4 ^ 2
  k1 / ((k7 / 2) * Real.exp (k6 / 2) + k1 / uncorrectedQ0
        - (k7 / tempFromPressure) * Real.exp (k6 / tempFromPressure))

open Classical in
/-- RFDataRun.calcQ0 with Python's division semantics made explicit: each
division whose denominator is zero raises ZeroDivisionError, modelled as
`none`.  The fallible sites, in evaluation order, are the uncorrectedQ0
division (zero iff rfHeatLoad = 0), the `C1 / uncorrectedQ0` term (zero iff
gradient = 0 with rfHeatLoad nonzero), the `C7 / tempFromPress` term, and the
final division by the corrected denominator. -/
noncomputable def calcQ0Checked (grad rfHeatLoad avgPressure : ℝ) : Option ℝ :=
  if 939.3 * rfHeatLoad = 0 then none
  else if (grad * 1000000) ^ 2 / (939.3 * rfHeatLoad) = 0 then none
  else if avgPressure * 0.0125 + 1.705 = 0 then none
  else if q0Denom grad rfHeatLoad avgPressure = 0 then none
  else some (calcQ0 grad rfHeatLoad avgPressure)

/-- RFDataRun.q0 final value (container.py line 2023): the arithmetic mean of
the per-sample calcQ0 values over the loop's (gradient, pressure) argument
pairs. -/
noncomputable def rfRunQ0 (s : SessionData) (r : RunSeg) (rfHeatLoad : ℝ) : ℝ :=
  let q0s := (q0Loop s r).1.map (fun gp => calcQ0 (gp.1 : ℝ) rfHeatLoad (gp.2 : ℝ))
  q0s.sum / q0s.length

/-! ## Lemmas and claim theorems -/

lemma pyAbs_eq_abs (q : ℚ) : pyAbs q = |q| := by
  unfold pyAbs
  rcases lt_or_le q 0 with h | h
  · rw [if_pos h, abs_of_neg h]
  · rw [if_neg (not_lt.mpr h), abs_of_nonneg h]

lemma segLoop_minDur (s : SessionData) (endCond : SessionData → ℕ → Bool) :
    ∀ (l : List ℕ) (runs : List RunSeg) (rs : ℕ),
      (∀ i ∈ l, rs ≤ i) → l.Pairwise (· ≤ ·) → (∀ r ∈ runs, minDurOK s r) →
      ∀ r ∈ (segLoop s endCond l (runs, rs)).1, minDurOK s r := by
  intro l
  induction l with
  | nil => intro runs rs _ _ hruns r hr; exact hruns r hr
  | cons idx rest ih =>
      intro runs rs hrs hpw hruns r hr
      rw [List.pairwise_cons] at hpw
      simp only [segLoop] at hr
      by_cases hend : endCond s idx = true
      · rw [hend] at hr
        simp only [checkAndFlushRun, if_pos rfl] at hr
        by_cases hdur :
            MIN_RUN_DURATION ≤ s.unixTimeBuff.getD idx 0 - s.unixTimeBuff.getD rs 0
        · rw [if_pos hdur] at hr
          refine ih _ _ (fun i hi => hpw.1 i hi) hpw.2 ?_ r hr
          intro r' hr'
          simp only [addRun, List.mem_append, List.mem_singleton] at hr'
          rcases hr' with hr' | hr'
          · exact hruns r' hr'
          · subst hr'
            -- the emitted run is [rs, idx - 1]; a break at idx = 0 cannot emit
            have hidx : 1 ≤ idx := by
              by_contra hidx
              have : idx = 0 := by omega
              subst this
              have : rs = 0 := Nat.le_zero.mp (hrs 0 (by simp))
              subst this
              simp only [sub_self] at hdur
              have : (0:ℚ) < MIN_RUN_DURATION := by norm_num [MIN_RUN_DURATION]
              linarith
            unfold minDurOK
            simp only []
            have : idx - 1 + 1 = idx := by omega
            rw [this]
            exact hdur
        · rw [if_neg hdur] at hr
          exact ih _ _ (fun i hi => hpw.1 i hi) hpw.2 hruns r hr
      · have hend' : endCond s idx = false := by
          revert hend; cases endCond s idx <;> simp
        rw [hend'] at hr
        simp only [checkAndFlushRun, Bool.false_eq_true, if_neg] at hr
        refine ih _ _ (fun i hi => le_trans (hrs i (by simp [hi])) le_rfl) hpw.2 hruns r ?_
        · simpa using hr

lemma populateRunsCalib_minDur (s : SessionData) :
    ∀ r ∈ populateRunsCalib s, minDurOK s r := by
  intro r hr
  refine segLoop_minDur s isEndOfCalibRun (List.range s.elecHeatDesBuff.length) [] 0
    (fun i _ => Nat.zero_le i) ?_ (by simp) r hr
  exact (List.pairwise_lt_range _).imp (fun h => le_of_lt h)

lemma populateRunsQ0_minDur (s : SessionData) :
    ∀ r ∈ populateRunsQ0 s, minDurOK s r := by
  intro r hr
  refine segLoop_minDur s isEndOfQ0Run (List.range s.elecHeatDesBuff.length) [] 0
    (fun i _ => Nat.zero_le i) ?_ (by simp) r hr
  exact (List.pairwise_lt_range _).imp (fun h => le_of_lt h)

lemma getD_of_take_append (out pre : List RunSeg) (r : RunSeg)
    (h : out.take (pre.length + 1) = pre ++ [r]) :
    out.getD pre.length default = r := by
  have h1 : out[pre.length]? = (out.take (pre.length + 1))[pre.length]? := by
    rw [List.getElem?_take, if_pos (by omega)]
  rw [h] at h1
  have h2 : (pre ++ [r])[pre.length]? = some r := by
    rw [List.getElem?_append_right le_rfl]
    simp
  rw [List.getD_eq_getElem?_getD, h1, h2]
  rfl

lemma settleRuns_take (s : SessionData) (delta : List RunSeg → ℕ → ℚ) :
    ∀ (rest processed out : List RunSeg),
      settleRuns s delta processed rest = some out →
      out.take processed.length = processed ∧ out.length = processed.length + rest.length := by
  intro rest
  induction rest with
  | nil =>
      intro processed out h
      simp only [settleRuns, Option.some.injEq] at h
      subst h
      exact ⟨List.take_length _, by simp⟩
  | cons run rest ih =>
      intro processed out h
      simp only [settleRuns] at h
      cases hst : settleTarget s.unixTimeBuff (s.unixTimeBuff.getD run.startIdx 0)
          (pyInt (delta processed run.startIdx * 25)) run.startIdx with
      | none => rw [hst] at h; simp at h
      | some idx =>
          rw [hst] at h
          obtain ⟨htake, hlen⟩ := ih (processed ++ [{ run with startIdx := idx }]) out h
          rw [List.length_append, List.length_singleton] at htake hlen
          constructor
          · have h1 : out.take processed.length
                = (out.take (processed.length + 1)).take processed.length := by
              rw [List.take_take]
              congr 1
              omega
            rw [h1, htake]
            exact List.take_left processed [{ run with startIdx := idx }]
          · simp only [List.length_cons]
            omega

lemma settleRuns_char (s : SessionData) (delta : List RunSeg → ℕ → ℚ) :
    ∀ (rest processed out : List RunSeg),
      settleRuns s delta processed rest = some out →
      ∀ i, i < rest.length →
        (out.getD (processed.length + i) default).endIdx = (rest.getD i default).endIdx ∧
        (out.getD (processed.length + i) default).isHeaterRun
          = (rest.getD i default).isHeaterRun ∧
        settleTarget s.unixTimeBuff
            (s.unixTimeBuff.getD (rest.getD i default).startIdx 0)
            (pyInt (delta (out.take (processed.length + i)) (rest.getD i default).startIdx * 25))
            (rest.getD i default).startIdx
          = some ((out.getD (processed.length + i) default).startIdx) := by
  intro rest
  induction rest with
  | nil => intro processed out _ i hi; simp at hi
  | cons run rest ih =>
      intro processed out h i hi
      have h0 := h
      simp only [settleRuns] at h
      cases hst : settleTarget s.unixTimeBuff (s.unixTimeBuff.getD run.startIdx 0)
          (pyInt (delta processed run.startIdx * 25)) run.startIdx with
      | none => rw [hst] at h; simp at h
      | some idx =>
          rw [hst] at h
          have hrec := settleRuns_take s delta rest (processed ++ [{ run with startIdx := idx }])
            out h
          have htake1 : out.take (processed.length + 1) = processed ++ [{ run with startIdx := idx }] := by
            have := hrec.1
            rwa [List.length_append, List.length_singleton] at this
          have htake0 : out.take processed.length = processed :=
            (settleRuns_take s delta (run :: rest) processed out h0).1
          cases i with
          | zero =>
              have hget : out.getD (processed.length + 0) default = { run with startIdx := idx } := by
                rw [Nat.add_zero]
                exact getD_of_take_append out processed _ htake1
              refine ⟨?_, ?_, ?_⟩
              · rw [hget]; rfl
              · rw [hget]; rfl
              · rw [hget]
                simp only [List.getD_cons_zero, Nat.add_zero, htake0]
                exact hst
          | succ i' =>
              have hi' : i' < rest.length := by simpa using hi
              have := ih (processed ++ [{ run with startIdx := idx }]) out h i' hi'
              rw [List.length_append, List.length_singleton] at this
              have hpos : processed.length + 1 + i' = processed.length + (i' + 1) := by omega
              rw [hpos] at this
              simpa only [List.getD_cons_succ] using this

lemma settleLoop_some (unixTimeBuff : List ℚ) (startTime : ℚ) (cutoff : ℤ) :
    ∀ (fuel idx : ℕ) (duration : ℚ) (j : ℕ),
      settleLoop unixTimeBuff startTime cutoff fuel idx duration = some j →
      idx ≤ j ∧
      ((j = idx ∧ (cutoff : ℚ) ≤ duration) ∨
       (idx < j ∧ duration < (cutoff : ℚ) ∧ j < unixTimeBuff.length ∧
        (cutoff : ℚ) ≤ unixTimeBuff.getD j 0 - startTime ∧
        ∀ m, idx < m → m < j → unixTimeBuff.getD m 0 - startTime < (cutoff : ℚ))) := by
  intro fuel
  induction fuel with
  | zero => intro idx dur j h; simp [settleLoop] at h
  | succ fuel ih =>
      intro idx dur j h
      simp only [settleLoop] at h
      by_cases hc : dur < (cutoff : ℚ)
      · rw [if_pos hc] at h
        cases hget : unixTimeBuff.get? (idx + 1) with
        | none => rw [hget] at h; simp at h
        | some t =>
            rw [hget] at h
            obtain ⟨hle, hcase⟩ := ih (idx + 1) (t - startTime) j h
            have hidx1 : idx + 1 < unixTimeBuff.length := (List.get?_eq_some.mp hget).1
            have hTgetD : unixTimeBuff.getD (idx + 1) 0 = t := by
              rw [List.getD_eq_getElem?_getD, ← List.get?_eq_getElem?, hget]
              rfl
            refine ⟨by omega, Or.inr ?_⟩
            rcases hcase with ⟨hj, hd⟩ | ⟨hlt', hdur', hjlen, hge, hmin⟩
            · subst hj
              exact ⟨by omega, hc, hidx1, by rwa [hTgetD], fun m hm1 hm2 => by omega⟩
            · refine ⟨by omega, hc, hjlen, hge, ?_⟩
              intro m hm1 hm2
              by_cases hm : m = idx + 1
              · subst hm; rwa [hTgetD]
              · exact hmin m (by omega) hm2
      · rw [if_neg hc] at h
        have hj : idx = j := by simpa using h
        subst hj
        exact ⟨le_rfl, Or.inl ⟨rfl, not_lt.mp hc⟩⟩

lemma q0Step_eq (s : SessionData) (acc : List (ℚ × ℚ) × ℕ) (idx : ℕ) :
    q0Step s acc idx
      = (acc.1 ++ [q0Arg s idx], acc.2 + if gradInvalidB s idx then 1 else 0) := by
  unfold q0Step q0Arg gradInvalidB
  cases hg : s.gradBuff.getD idx none with
  | none => simp
  | some g =>
      by_cases hzero : g = 0
      · subst hzero; simp
      · simp [hzero]

lemma q0Fold (s : SessionData) :
    ∀ (l : List ℕ) (acc : List (ℚ × ℚ) × ℕ),
      l.foldl (q0Step s) acc
        = (acc.1 ++ l.map (q0Arg s),
           acc.2 + (l.filter (fun i => gradInvalidB s i)).length) := by
  intro l
  induction l with
  | nil => intro acc; simp
  | cons idx rest ih =>
      intro acc
      rw [List.foldl_cons, q0Step_eq, ih]
      simp only [List.map_cons, List.filter_cons]
      refine Prod.ext ?_ ?_
      · simp
      · by_cases h : gradInvalidB s idx = true
        · simp only [h, if_true, List.length_cons]
          omega
        · have h' : gradInvalidB s idx = false := by
            revert h; cases gradInvalidB s idx <;> simp
          simp only [h', Bool.false_eq_true, if_false]
          omega

lemma q0Loop_eq (s : SessionData) (r : RunSeg) :
    q0Loop s r
      = ((List.range' r.startIdx (r.endIdx - r.startIdx)).map (q0Arg s),
         ((List.range' r.startIdx (r.endIdx - r.startIdx)).filter
           (fun i => gradInvalidB s i)).length) := by
  unfold q0Loop
  rw [q0Fold]
  simp

lemma heatAdjFold (m : ℚ) :
    ∀ (l : List HeaterRunData) (acc : List ℚ),
      l.foldl (heatAdjStep m) acc
        = acc ++ (l.map (heaterRunHeatAdjustment m)).filter (fun a => decide (a ≠ 0)) := by
  intro l
  induction l with
  | nil => intro acc; simp
  | cons r rest ih =>
      intro acc
      rw [List.foldl_cons, ih]
      simp only [List.map_cons, List.filter_cons]
      by_cases h : heaterRunHeatAdjustment m r = 0
      · simp [heatAdjStep, h]
      · simp [heatAdjStep, h]

lemma pySlice_length (l : List ℚ) (a b : ℕ) (hb : b ≤ l.length) :
    (pySlice l a b).length = b - a := by
  unfold pySlice
  rw [List.length_drop, List.length_take, Nat.min_eq_left hb]

lemma pySlice_getD (l : List ℚ) (a b k : ℕ) (hk : k < b - a) :
    (pySlice l a b).getD k 0 = l.getD (a + k) 0 := by
  unfold pySlice
  rw [List.getD_eq_getElem?_getD, List.getD_eq_getElem?_getD, List.getElem?_drop,
    List.getElem?_take, if_pos (by omega)]

/-- C1 counterexample: for the heater pairs (0 W, 1 %/s) and (2 W, 3 %/s) the
fit is slope = 1, yIntercept = 1; the stored heat adjustment is
`-xIntercept = yIntercept / calibSlope = 1`, not `-yIntercept / calibSlope = -1`
as the claim states. -/
theorem calib_origin_cex :
    heatAdjustmentOf [0, 2] [1, 3] = 1 ∧
    -(olsIntercept [0, 2] [1, 3]) / olsSlope [0, 2] [1, 3] = -1 ∧
    (1 : ℚ) ≠ -1 := by
  refine ⟨?_, ?_, ?_⟩ <;> with_unfolding_all decide

/-- C1 (amended): after the degree-1 fit of the heater runs' (heat load,
slope) pairs, the stored heat adjustment equals `yIntercept / calibSlope`
(the negative of the fit's x-intercept), and shifting any subsequently
reported heat load by this adjustment makes the zero-intercept curve
`slope = calibSlope * adjustedHeatLoad` reproduce the original fitted line
`calibSlope * heatLoad + yIntercept` exactly. -/
theorem calib_origin_amended (xs ys : List ℚ) (h : ℚ) (hm : olsSlope xs ys ≠ 0) :
    heatAdjustmentOf xs ys = olsIntercept xs ys / olsSlope xs ys ∧
    calibSlopeOf xs ys * elecHeatLoadActAdjusted h (heatAdjustmentOf xs ys)
      = olsSlope xs ys * h + olsIntercept xs ys := by
  have h1 : heatAdjustmentOf xs ys = olsIntercept xs ys / olsSlope xs ys := by
    unfold heatAdjustmentOf calibFit polyfit1
    simp only []
    rw [neg_div, neg_neg]
  have h2 : calibSlopeOf xs ys = olsSlope xs ys := rfl
  refine ⟨h1, ?_⟩
  rw [h2, elecHeatLoadActAdjusted, h1]
  field_simp
  ring

/-- C1 witness at the pairs (0,1), (2,3) and heat load 5. -/
theorem calib_origin_amended_w :
    olsSlope [0, 2] [1, 3] ≠ 0 ∧
    (heatAdjustmentOf [0, 2] [1, 3] = olsIntercept [0, 2] [1, 3] / olsSlope [0, 2] [1, 3] ∧
     calibSlopeOf [0, 2] [1, 3] * elecHeatLoadActAdjusted 5 (heatAdjustmentOf [0, 2] [1, 3])
       = olsSlope [0, 2] [1, 3] * 5 + olsIntercept [0, 2] [1, 3]) :=
  ⟨by with_unfolding_all decide,
   calib_origin_amended [0, 2] [1, 3] 5 (by with_unfolding_all decide)⟩

/-- C3 counterexample: on `s3` the code trims run 1 to start index 4 (its heat
delta is computed from run 0's post-trim start index 1, giving cutoff 25),
while the spec-worded pre-trim variant trims run 1 to start index 5 (delta
from run 0's original start index 0, giving cutoff 28). -/
theorem settle_posttrim_cex :
    processDataRunsQ0 s3 = some [⟨1, 2, true⟩, ⟨4, 6, true⟩] ∧
    adjustForSettlePreQ0 s3 (populateRunsQ0 s3) = some [⟨1, 2, true⟩, ⟨5, 6, true⟩] ∧
    (4 : ℕ) ≠ 5 := by
  refine ⟨?_, ?_, ?_⟩ <;> with_unfolding_all decide

/-- C3 (amended): settle trimming runs strictly after segmentation and before
fitting, processes runs in their original order (preserving each run's end
index and classification), and for every run i the heat delta feeding the
cutoff is computed from the already-trimmed prefix of the run list, i.e.
for i > 0 from run i-1's POST-trim start index. -/
theorem settle_posttrim_amended (s : SessionData) (out : List RunSeg)
    (h : processDataRunsQ0 s = some out) (i : ℕ) (hi : i < (populateRunsQ0 s).length) :
    out.length = (populateRunsQ0 s).length ∧
    (out.getD i default).endIdx = ((populateRunsQ0 s).getD i default).endIdx ∧
    (out.getD i default).isHeaterRun = ((populateRunsQ0 s).getD i default).isHeaterRun ∧
    settleTarget s.unixTimeBuff
        (s.unixTimeBuff.getD ((populateRunsQ0 s).getD i default).startIdx 0)
        (pyInt (getTotalHeatDeltaQ0 s (out.take i)
          ((populateRunsQ0 s).getD i default).startIdx * 25))
        ((populateRunsQ0 s).getD i default).startIdx
      = some ((out.getD i default).startIdx) ∧
    pipelineQ0 s = some (processRunsSlopes s out) := by
  have h' : settleRuns s (getTotalHeatDeltaQ0 s) [] (populateRunsQ0 s) = some out := h
  have hlen := settleRuns_take s (getTotalHeatDeltaQ0 s) (populateRunsQ0 s) [] out h'
  have hchar := settleRuns_char s (getTotalHeatDeltaQ0 s) (populateRunsQ0 s) [] out h' i hi
  simp only [List.length_nil, Nat.zero_add] at hlen hchar
  refine ⟨by omega, hchar.1, hchar.2.1, hchar.2.2, ?_⟩
  unfold pipelineQ0
  rw [h]

/-- C3 witness on `s3` at run index 1. -/
theorem settle_posttrim_amended_w :
    processDataRunsQ0 s3 = some s3Out ∧ 1 < (populateRunsQ0 s3).length ∧
    (s3Out.length = (populateRunsQ0 s3).length ∧
     (s3Out.getD 1 default).endIdx = ((populateRunsQ0 s3).getD 1 default).endIdx ∧
     (s3Out.getD 1 default).isHeaterRun = ((populateRunsQ0 s3).getD 1 default).isHeaterRun ∧
     settleTarget s3.unixTimeBuff
         (s3.unixTimeBuff.getD ((populateRunsQ0 s3).getD 1 default).startIdx 0)
         (pyInt (getTotalHeatDeltaQ0 s3 (s3Out.take 1)
           ((populateRunsQ0 s3).getD 1 default).startIdx * 25))
         ((populateRunsQ0 s3).getD 1 default).startIdx
       = some ((s3Out.getD 1 default).startIdx) ∧
     pipelineQ0 s3 = some (processRunsSlopes s3 s3Out)) :=
  ⟨by with_unfolding_all decide, by with_unfolding_all decide,
   settle_posttrim_amended s3 s3Out (by with_unfolding_all decide) 1
     (by with_unfolding_all decide)⟩

/-- C4 counterexample: on `c4S` the segmenter emits the run [0, 0] (the break
at the final index 1 measures 900 s from index 0 to index 1), but the emitted
run itself spans unixT[0] - unixT[0] = 0 s, below MIN_RUN_DURATION. -/
theorem min_run_duration_cex :
    populateRunsCalib c4S = [⟨0, 0, false⟩] ∧
    c4S.unixTimeBuff.getD 0 0 - c4S.unixTimeBuff.getD 0 0 < MIN_RUN_DURATION := by
  refine ⟨?_, ?_⟩ <;> with_unfolding_all decide

/-- C4 (amended): every run emitted by the segmenter (calibration or Q0
variant) satisfies `unixT[endIdx + 1] - unixT[startIdx] ≥ MIN_RUN_DURATION`:
the 900 s minimum is measured up to the breaking sample `endIdx + 1`, not up
to the emitted run's last sample `endIdx`. -/
theorem min_run_duration_amended (s : SessionData) (r : RunSeg)
    (hr : r ∈ populateRunsCalib s ∨ r ∈ populateRunsQ0 s) :
    MIN_RUN_DURATION
      ≤ s.unixTimeBuff.getD (r.endIdx + 1) 0 - s.unixTimeBuff.getD r.startIdx 0 := by
  rcases hr with hr | hr
  · exact populateRunsCalib_minDur s r hr
  · exact populateRunsQ0_minDur s r hr

/-- C4 witness on `c4S`: the emitted run [0, 0] keeps 900 s up to sample 1. -/
theorem min_run_duration_amended_w :
    ((⟨0, 0, false⟩ : RunSeg) ∈ populateRunsCalib c4S ∨
     (⟨0, 0, false⟩ : RunSeg) ∈ populateRunsQ0 c4S) ∧
    MIN_RUN_DURATION ≤ c4S.unixTimeBuff.getD 1 0 - c4S.unixTimeBuff.getD 0 0 :=
  ⟨Or.inl (by with_unfolding_all decide),
   min_run_duration_amended c4S ⟨0, 0, false⟩ (Or.inl (by with_unfolding_all decide))⟩

/-- C5 counterexample: with calibSlope = 1 and heater runs whose adjustments
are 0 and 2, the code's avgHeatAdjustment is 2 (the truthiness guard drops
the zero adjustment), while the claimed mean over all heater runs is 1. -/
theorem avg_heat_adjustment_cex :
    avgHeatAdjustment 1 [⟨2, 2⟩, ⟨0, 2⟩] = 2 ∧
    avgHeatAdjustmentSpec 1 [⟨2, 2⟩, ⟨0, 2⟩] = 1 ∧
    (2 : ℚ) ≠ 1 := by
  refine ⟨?_, ?_, ?_⟩ <;> with_unfolding_all decide

/-- C5 (amended): totalHeatLoad of an RF run is (runSlope / calibSlope) +
avgHeatAdjustment, where avgHeatAdjustment is the arithmetic mean over the
session's heater runs whose adjustment `elecHeatLoadActual - runSlope/calibSlope`
is NONZERO (the Python truthiness guard `if runAdjustment:` drops exact
zeros), and is 0 when no such run exists — in particular when the session has
no heater runs at all. -/
theorem avg_heat_adjustment_amended (m rfSlope : ℚ) (heaterRuns : List HeaterRunData) :
    adjustedTotalHeatLoad m heaterRuns rfSlope = rfSlope / m + avgHeatAdjustment m heaterRuns ∧
    avgHeatAdjustment m heaterRuns =
      (if ((heaterRuns.map (heaterRunHeatAdjustment m)).filter
            (fun a => decide (a ≠ 0))).length = 0
       then 0
       else ((heaterRuns.map (heaterRunHeatAdjustment m)).filter
              (fun a => decide (a ≠ 0))).sum /
            ((((heaterRuns.map (heaterRunHeatAdjustment m)).filter
              (fun a => decide (a ≠ 0))).length : ℚ))) ∧
    avgHeatAdjustment m [] = 0 := by
  refine ⟨rfl, ?_, rfl⟩
  unfold avgHeatAdjustment
  rw [heatAdjFold]
  simp

/-- C8: the q0 loop substitutes the session's reference gradient exactly at
the samples whose archived gradient is invalid (None or 0), and the reported
fallback count is exactly the number of such samples among the loop's
indices.  On the spec's 10-sample scenario `c8S` (only index 5 invalid) the
count is 1 and the substituted pair at position 5 is (refGradVal, pressure). -/
theorem gradient_fallback (s : SessionData) (r : RunSeg) (idx : ℕ)
    (hinv : gradInvalidB s idx = true) :
    (q0Loop s r).2
      = ((List.range' r.startIdx (r.endIdx - r.startIdx)).filter
          (fun i => gradInvalidB s i)).length ∧
    (q0Loop s r).1 = (List.range' r.startIdx (r.endIdx - r.startIdx)).map (q0Arg s) ∧
    (q0Arg s idx).1 = s.refGradVal ∧
    (q0Loop c8S c8R).2 = 1 ∧
    (q0Loop c8S c8R).1.getD 5 (0, 0) = (c8S.refGradVal, c8S.dsPressBuff.getD 5 0) := by
  refine ⟨?_, ?_, ?_, ?_, ?_⟩
  · rw [q0Loop_eq]
  · rw [q0Loop_eq]
  · unfold q0Arg
    unfold gradInvalidB at hinv
    cases hg : s.gradBuff.getD idx none with
    | none => simp [hg]
    | some g =>
        rw [hg] at hinv
        have : g = 0 := of_decide_eq_true hinv
        simp [hg, this]
  · with_unfolding_all decide
  · with_unfolding_all decide

/-- C8 witness: gradient index 5 of `c8S` is invalid, and the theorem
instantiated there. -/
theorem gradient_fallback_w :
    gradInvalidB c8S 5 = true ∧
    ((q0Loop c8S c8R).2
      = ((List.range' c8R.startIdx (c8R.endIdx - c8R.startIdx)).filter
          (fun i => gradInvalidB c8S i)).length ∧
     (q0Loop c8S c8R).1
       = (List.range' c8R.startIdx (c8R.endIdx - c8R.startIdx)).map (q0Arg c8S) ∧
     (q0Arg c8S 5).1 = c8S.refGradVal ∧
     (q0Loop c8S c8R).2 = 1 ∧
     (q0Loop c8S c8R).1.getD 5 (0, 0) = (c8S.refGradVal, c8S.dsPressBuff.getD 5 0)) :=
  ⟨by with_unfolding_all decide,
   gradient_fallback c8S c8R 5 (by with_unfolding_all decide)⟩

/-- C9 counterexample: for the run {startIdx 0, endIdx 2} into dsLevel
[1, 2, 3], the fit input `dsLevelBuff[startIdx:endIdx]` is [1, 2]; the sample
at endIdx (value 3) is not among the fitted samples, so the bounds are not
used inclusively. -/
theorem run_bounds_cex :
    runData c9S c9R = [1, 2] ∧
    runDataInclusive c9S c9R = [1, 2, 3] ∧
    ¬ ((3 : ℚ) ∈ runData c9S c9R) := by
  refine ⟨?_, ?_, ?_⟩ <;> with_unfolding_all decide

/-- C9 (amended): run bounds act half-open: both the samples fitted by the
run's least-squares regression (data and time stamps) and the samples
entering the per-sample Q0 mean are exactly the indices `startIdx` through
`endIdx - 1`; the sample at `endIdx` is excluded.  The k-th used sample is
the buffer entry at `startIdx + k`. -/
theorem run_bounds_amended (s : SessionData) (r : RunSeg) (k : ℕ)
    (h2 : r.endIdx ≤ s.dsLevelBuff.length) (h3 : r.endIdx ≤ s.unixTimeBuff.length)
    (hk : k < r.endIdx - r.startIdx) :
    (runData s r).length = r.endIdx - r.startIdx ∧
    (runTimeStamps s r).length = r.endIdx - r.startIdx ∧
    (runData s r).getD k 0 = s.dsLevelBuff.getD (r.startIdx + k) 0 ∧
    (runTimeStamps s r).getD k 0 = s.unixTimeBuff.getD (r.startIdx + k) 0 ∧
    (q0Loop s r).1.length = r.endIdx - r.startIdx := by
  refine ⟨pySlice_length _ _ _ h2, pySlice_length _ _ _ h3,
    pySlice_getD _ _ _ _ hk, pySlice_getD _ _ _ _ hk, ?_⟩
  rw [q0Loop_eq]
  simp [List.length_range']

/-- C9 witness on `c9S` with k = 1. -/
theorem run_bounds_amended_w :
    (c9R.endIdx ≤ c9S.dsLevelBuff.length ∧ c9R.endIdx ≤ c9S.unixTimeBuff.length ∧
     1 < c9R.endIdx - c9R.startIdx) ∧
    ((runData c9S c9R).length = c9R.endIdx - c9R.startIdx ∧
     (runTimeStamps c9S c9R).length = c9R.endIdx - c9R.startIdx ∧
     (runData c9S c9R).getD 1 0 = c9S.dsLevelBuff.getD (c9R.startIdx + 1) 0 ∧
     (runTimeStamps c9S c9R).getD 1 0 = c9S.unixTimeBuff.getD (c9R.startIdx + 1) 0 ∧
     (q0Loop c9S c9R).1.length = c9R.endIdx - c9R.startIdx) :=
  ⟨⟨by with_unfolding_all decide, by with_unfolding_all decide,
    by with_unfolding_all decide⟩,
   run_bounds_amended c9S c9R 1 (by with_unfolding_all decide)
     (by with_unfolding_all decide) (by with_unfolding_all decide)⟩

/-- C10 counterexample: on `c10aS` the settle loop walks past the end of the
time buffer (an IndexError, modelled as `none`), and on `c10bS` it terminates
with the first run's trimmed startIdx 3 strictly greater than that run's
endIdx 2. -/
theorem settle_inbounds_cex :
    populateRunsCalib c10aS = [⟨0, 1, true⟩] ∧
    adjustForSettleCalib c10aS (populateRunsCalib c10aS) = none ∧
    populateRunsCalib c10bS = [⟨0, 2, true⟩, ⟨3, 5, true⟩] ∧
    adjustForSettleCalib c10bS (populateRunsCalib c10bS)
      = some [⟨3, 2, true⟩, ⟨3, 5, true⟩] ∧
    (2 : ℕ) < 3 := by
  refine ⟨?_, ?_, ?_, ?_, ?_⟩ <;> with_unfolding_all decide

/-- C10 (amended): the settle loop always terminates, either by signalling an
out-of-range read (`none`) or with a trimmed index `j ≥ startIdx`; whenever it
actually advances, `j` is within the time buffer and is the first index whose
elapsed time reaches the cutoff.  Nothing bounds `j` by the run's endIdx, and
for large cutoffs the out-of-range read does occur (see the counterexample). -/
theorem settle_loop_inbounds_amended (buff : List ℚ) (startTime : ℚ) (cutoff : ℤ)
    (startIdx j m : ℕ) (h : settleTarget buff startTime cutoff startIdx = some j) :
    startIdx ≤ j ∧
    (startIdx < j →
      j < buff.length ∧ (cutoff : ℚ) ≤ buff.getD j 0 - startTime ∧
      (startIdx < m → m < j → buff.getD m 0 - startTime < (cutoff : ℚ))) := by
  obtain ⟨hle, hcase⟩ := settleLoop_some buff startTime cutoff (buff.length + 1) startIdx 0 j h
  refine ⟨hle, fun hlt => ?_⟩
  rcases hcase with ⟨hj, _⟩ | ⟨_, _, hjlen, hge, hmin⟩
  · omega
  · exact ⟨hjlen, hge, fun hm1 hm2 => hmin m hm1 hm2⟩

/-- C10 witness: a 40 s cutoff from index 0 of [0, 450, 900] trims to index 1. -/
theorem settle_loop_inbounds_amended_w :
    settleTarget [0, 450, 900] 0 40 0 = some 1 ∧
    (0 ≤ 1 ∧
     (0 < 1 →
       1 < ([0, 450, 900] : List ℚ).length ∧
       ((40 : ℤ) : ℚ) ≤ ([0, 450, 900] : List ℚ).getD 1 0 - 0 ∧
       (0 < 0 → 0 < 1 → ([0, 450, 900] : List ℚ).getD 0 0 - 0 < ((40 : ℤ) : ℚ)))) :=
  ⟨by with_unfolding_all decide,
   settle_loop_inbounds_amended [0, 450, 900] 0 40 0 1 0 (by with_unfolding_all decide)⟩

/-- At 23.6 Torr the helium temperature is exactly 2 K, so the two
exponential terms of the denominator cancel. -/
lemma q0Denom_at_two (g h : ℝ) :
    q0Denom g h 23.6 = 271 / ((g * 1000000) ^ 2 / (939.3 * h)) := by
  have ht : (23.6 : ℝ) * 0.0125 + 1.705 = 2 := by norm_num
  simp only [q0Denom]
  rw [ht]
  ring

lemma q0Denom_pos_at16 : 0 < q0Denom 16 1 23.6 := by
  rw [q0Denom_at_two]
  positivity

lemma exp_split_4255 : Real.exp (4.255 : ℝ) = Real.exp 1 ^ 4 * Real.exp 0.255 := by
  rw [← Real.exp_nat_mul, ← Real.exp_add]
  norm_num

lemma exp_4255_lb : (68.5 : ℝ) < Real.exp 4.255 := by
  rw [exp_split_4255]
  have e1 : (2.7182818283 : ℝ) < Real.exp 1 := Real.exp_one_gt_d9
  have e255 : (1.255 : ℝ) ≤ Real.exp 0.255 := by
    have := Real.add_one_le_exp (0.255 : ℝ)
    linarith
  have hp : (2.7182818283 : ℝ) ^ 4 < Real.exp 1 ^ 4 := by
    apply pow_lt_pow_left₀ e1 (by norm_num)
    norm_num
  calc (68.5 : ℝ) < 2.7182818283 ^ 4 * 1.255 := by norm_num
    _ ≤ 2.7182818283 ^ 4 * Real.exp 0.255 :=
        mul_le_mul_of_nonneg_left e255 (by norm_num)
    _ < Real.exp 1 ^ 4 * Real.exp 0.255 :=
        mul_lt_mul_of_pos_right hp (Real.exp_pos _)

lemma exp_4255_ub : Real.exp (4.255 : ℝ) < 73.3 := by
  rw [exp_split_4255]
  have e1 : Real.exp 1 < 2.7182818286 := Real.exp_one_lt_d9
  have e255 : Real.exp (0.255 : ℝ) ≤ 1 / 0.745 := by
    have h := Real.add_one_le_exp (-0.255 : ℝ)
    rw [Real.exp_neg] at h
    have hpos : (0 : ℝ) < Real.exp 0.255 := Real.exp_pos _
    have hinv : Real.exp (0.255 : ℝ) * (Real.exp (0.255 : ℝ))⁻¹ = 1 :=
      mul_inv_cancel₀ (ne_of_gt hpos)
    nlinarith
  have hp : Real.exp 1 ^ 4 ≤ (2.7182818286 : ℝ) ^ 4 :=
    pow_le_pow_left₀ (le_of_lt (Real.exp_pos 1)) (le_of_lt e1) 4
  calc Real.exp 1 ^ 4 * Real.exp 0.255
      ≤ 2.7182818286 ^ 4 * (1 / 0.745) :=
        mul_le_mul hp e255 (le_of_lt (Real.exp_pos _)) (by positivity)
    _ < 73.3 := by norm_num

lemma exp_neg4255_lb : (1 / 73.3 : ℝ) < Real.exp (-4.255) := by
  rw [Real.exp_neg, inv_eq_one_div]
  exact one_div_lt_one_div_of_lt (Real.exp_pos _) exp_4255_ub

lemma exp_neg4255_ub : Real.exp (-4.255 : ℝ) < 1 / 68.5 := by
  rw [Real.exp_neg, inv_eq_one_div]
  exact one_div_lt_one_div_of_lt (by norm_num) exp_4255_lb

lemma exp_split_851 :
    Real.exp (-8.51 : ℝ) = Real.exp (-4.255) * Real.exp (-4.255) := by
  rw [← Real.exp_add]
  norm_num

/-- At 183.6 Torr (4 K helium) and 16 MV/m, the corrected denominator is
negative for a 1 W RF heat load. -/
lemma q0Denom_cex_neg : q0Denom 16 1 183.6 < 0 := by
  have ht : (183.6 : ℝ) * 0.0125 + 1.705 = 4 := by norm_num
  have h2 : (-17.02 : ℝ) / 2 = -8.51 := by norm_num
  have h4 : (-17.02 : ℝ) / 4 = -4.255 := by norm_num
  have ylb := exp_neg4255_lb
  have yub := exp_neg4255_ub
  have ypos : (0 : ℝ) < Real.exp (-4.255) := Real.exp_pos _
  have hyy : Real.exp (-4.255) * Real.exp (-4.255) < Real.exp (-4.255) * (1 / 68.5) :=
    mul_lt_mul_of_pos_left yub ypos
  simp only [q0Denom]
  rw [ht, h2, h4, exp_split_851]
  norm_num
  nlinarith [ylb, yub, ypos, hyy]

/-- Same configuration with a 1000 W RF heat load: the denominator is
positive. -/
lemma q0Denom_cex_pos : 0 < q0Denom 16 1000 183.6 := by
  have ht : (183.6 : ℝ) * 0.0125 + 1.705 = 4 := by norm_num
  have h2 : (-17.02 : ℝ) / 2 = -8.51 := by norm_num
  have h4 : (-17.02 : ℝ) / 4 = -4.255 := by norm_num
  have ylb := exp_neg4255_lb
  have yub := exp_neg4255_ub
  have ypos : (0 : ℝ) < Real.exp (-4.255) := Real.exp_pos _
  simp only [q0Denom]
  rw [ht, h2, h4, exp_split_851]
  norm_num
  nlinarith [ylb, yub, ypos, mul_pos ypos ypos]

/-- C2: for positive rfHeatLoad, RFDataRun.calcQ0 computes exactly the spec's
corrected-Q0 formula. -/
theorem calcQ0_formula_spec (g h p : ℝ) (_hpos : 0 < h) :
    calcQ0 g h p = specCorrectedQ0 g h p := by
  simp only [calcQ0, q0Denom, specCorrectedQ0]
  norm_num

/-- C2 witness at gradient 2, heat load 1, pressure 3. -/
theorem calcQ0_formula_spec_w :
    (0 : ℝ) < 1 ∧ calcQ0 2 1 3 = specCorrectedQ0 2 1 3 :=
  ⟨by norm_num, calcQ0_formula_spec 2 1 3 (by norm_num)⟩

/-- C6 (code behavior at the failing input): at rfHeatLoad = 0 the very first
division of calcQ0 raises ZeroDivisionError (no flagged result is produced),
and at rfHeatLoad = -1 calcQ0 silently returns an unflagged negative Q0. -/
theorem calcQ0_nonpositive_rfHeatLoad :
    calcQ0Checked 16 0 23.6 = none ∧
    calcQ0Checked 16 (-1) 23.6 = some (calcQ0 16 (-1) 23.6) ∧
    calcQ0 16 (-1) 23.6 < 0 := by
  have hd : q0Denom 16 (-1) 23.6 < 0 := by
    rw [q0Denom_at_two]
    apply div_neg_of_pos_of_neg (by norm_num)
    apply div_neg_of_pos_of_neg (by norm_num) (by norm_num)
  refine ⟨?_, ?_, ?_⟩
  · unfold calcQ0Checked
    rw [if_pos (by norm_num)]
  · unfold calcQ0Checked
    rw [if_neg (by norm_num), if_neg (by norm_num), if_neg (by norm_num),
      if_neg (ne_of_lt hd)]
  · unfold calcQ0
    exact div_neg_of_pos_of_neg (by norm_num) hd

/-- C7 counterexample: at 16 MV/m and 183.6 Torr, calcQ0 is NOT strictly
decreasing in rfHeatLoad: the 1 W value is negative (the corrected
denominator is negative there) while the 1000 W value is positive, so
calcQ0(g, h2, p) < calcQ0(g, h1, p) fails for h1 = 1 < h2 = 1000. -/
theorem calcQ0_monotone_cex :
    (0 : ℝ) < 1 ∧ (1 : ℝ) < 1000 ∧
    ¬ (calcQ0 16 1000 183.6 < calcQ0 16 1 183.6) := by
  refine ⟨by norm_num, by norm_num, ?_⟩
  have h1 : calcQ0 16 1 183.6 < 0 := by
    unfold calcQ0
    exact div_neg_of_pos_of_neg (by norm_num) q0Denom_cex_neg
  have h2 : 0 < calcQ0 16 1000 183.6 := by
    unfold calcQ0
    exact div_pos (by norm_num) q0Denom_cex_pos
  exact not_lt.mpr (le_of_lt (lt_trans h1 h2))

/-- C7 (amended): with the gradient positive and the corrected denominator
positive at the smaller heat load (as it is at physical 2 K operating
pressures), calcQ0 is strictly decreasing in rfHeatLoad. -/
theorem calcQ0_strict_anti_amended (g p h1 h2 : ℝ) (hg : 0 < g) (_h1pos : 0 < h1)
    (h12 : h1 < h2) (hD : 0 < q0Denom g h1 p) :
    calcQ0 g h2 p < calcQ0 g h1 p := by
  have key : q0Denom g h2 p - q0Denom g h1 p
      = 271 * (939.3 * (h2 - h1)) / (g * 1000000) ^ 2 := by
    simp only [q0Denom]
    rw [div_div_eq_mul_div, div_div_eq_mul_div]
    ring
  have hdiff : 0 < q0Denom g h2 p - q0Denom g h1 p := by
    rw [key]
    have h21 : 0 < h2 - h1 := sub_pos.2 h12
    positivity
  have hD2 : q0Denom g h1 p < q0Denom g h2 p := by linarith
  unfold calcQ0
  exact div_lt_div_of_pos_left (by norm_num) hD hD2

/-- C7 witness at gradient 16, pressure 23.6 (2 K), heat loads 1 < 2. -/
theorem calcQ0_strict_anti_amended_w :
    ((0 : ℝ) < 16 ∧ (0 : ℝ) < 1 ∧ (1 : ℝ) < 2 ∧ 0 < q0Denom 16 1 23.6) ∧
    calcQ0 16 2 23.6 < calcQ0 16 1 23.6 :=
  ⟨⟨by norm_num, by norm_num, by norm_num, q0Denom_pos_at16⟩,
   calcQ0_strict_anti_amended 16 23.6 1 2 (by norm_num) (by norm_num) (by norm_num)
     q0Denom_pos_at16⟩

end Q0Pipeline

